import Mathlib

/-!
Shallow embedding of the room/session state machine of the Netflix-Trivia
server (`src/roomHandler.js`).  JavaScript objects used as keyed maps are
modelled as association lists (`List (key × value)`) with JS-object update
semantics (`setKey`: replace in place if the key exists, else append);
`Map` registry keys — the decimal string form of the 6-digit room code —
are modelled by the underlying natural number (the decimal rendering is a
bijection).  Randomness (`Math.random`) is modelled by an explicit stream
`rnd : Nat → Nat`, and the external Open Trivia fetch by an explicit
`fetch` function returning `Except` (network failure = `.error`).  The
answer shuffle is an oracle parameter `shuffle`.
-/

namespace Trivia

/-- One trivia question as stored in `roundQuestions` (roomHandler.js
lines 152-156). -/
structure Question where
  question : String
  correct_answer : String
  allAnswers : List String
deriving DecidableEq

/-- Raw question data as returned by the Open Trivia API. -/
structure RawQuestion where
  question : String
  correct_answer : String
  incorrect_answers : List String
deriving DecidableEq

/-- Player record (roomHandler.js lines 43-50).  `currentRoundAnswers` is a
JS object keyed by question index, modelled as an association list. -/
structure Player where
  name : String
  currentRoundScore : Nat
  totalScore : Nat
  currentRoundAnswers : List (Nat × Bool)
  endOfRoundRank : Option Nat
  overallRank : Option Nat
deriving DecidableEq

/-- Value of `room.currentProgress.roundQuestions`: initially `null`, then a
keyed question map; `nextRound` can also store the literal sentinel string
"end of round" returned by `generateRound`, modelled as `endSentinel`. -/
inductive RoundQs where
  | null
  | questions (qs : List (Nat × Question))
  | endSentinel
deriving DecidableEq

/-- The `currentProgress` sub-object of a room (roomHandler.js lines 191-195). -/
structure Progress where
  currentRound : Option Nat
  currentQuestion : Nat
  roundQuestions : RoundQs
deriving DecidableEq

/-- A game room (roomHandler.js lines 180-196). -/
structure Room where
  roomId : Nat
  gameMaster : String
  questionTimeLimit : Nat
  questionPerRound : Nat
  mode : Nat
  rounds : List Nat
  players : List (String × Player)
  quizStarted : Bool
  currentProgress : Progress
deriving DecidableEq

/-- Errors surfaced through the per-operation callbacks. -/
inductive OpError where
  | quizAlreadyStarted
  | noPlayers
  | playerNotFound
  | noActiveQuestion
deriving DecidableEq

/-- JS-object property assignment on an association list: replace the value
in place when the key is present, append otherwise. -/
def setKey {α β : Type} [BEq α] (l : List (α × β)) (k : α) (v : β) : List (α × β) :=
  if (l.lookup k).isSome then
    l.map (fun p => if p.1 == k then (k, v) else p)
  else
    l ++ [(k, v)]

/-- JS array indexing `l[i]`: `undefined` (here `none`) for a negative or
out-of-range index. -/
def jsIndex (l : List String) (i : Int) : Option String :=
  if 0 ≤ i then l[i.toNat]? else none

/-- roomHandler.js lines 31-41: `generateUniqueRoomId` resamples
`Math.floor(100000 + Math.random() * 900000)` until the code is not a key of
the registry.  The random stream is `rnd` (each draw reduced mod 900000, the
size of the sample space), and the while loop is the first index of the
stream whose code is fresh; `h` says such an index exists (for a genuinely
random stream this holds with probability 1 whenever a free code exists). -/
def generateUniqueRoomId (roomIds : List Nat) (rnd : Nat → Nat)
    (h : ∃ n, (100000 + rnd n % 900000) ∉ roomIds) : Nat :=
  100000 + rnd (Nat.find h) % 900000

/-- roomHandler.js lines 43-50. -/
def initializePlayer (playerName : String) : Player :=
  { name := playerName
    currentRoundScore := 0
    totalScore := 0
    currentRoundAnswers := []
    endOfRoundRank := none
    overallRank := none }

/-- Descending stable sort by score, `players.sort((a, b) => b.score - a.score)`
(roomHandler.js lines 72 and 89). -/
def sortScoresDesc (entries : List (String × Nat)) : List (String × Nat) :=
  entries.insertionSort (fun a b => b.2 ≤ a.2)

/-- The ranking loop of `calculateRankings` (roomHandler.js lines 74-81 and
91-98): walk the sorted list with position `i` and running `currentRank`;
when the score differs from the previous entry the rank jumps to `i + 1`. -/
def ranksGo (i currentRank prevScore : Nat) : List (String × Nat) → List (String × Nat)
  | [] => []
  | e :: rest =>
      let r := if 0 < i ∧ e.2 ≠ prevScore then i + 1 else currentRank
      (e.1, r) :: ranksGo (i + 1) r e.2 rest

/-- One ranking pass: sort the (playerId, score) entries descending, then
assign ranks with the gap-skip rule. -/
def rankPass (entries : List (String × Nat)) : List (String × Nat) :=
  ranksGo 0 1 0 (sortScoresDesc entries)

/-- roomHandler.js lines 63-99: recompute both `endOfRoundRank` (over
`currentRoundScore`) and `overallRank` (over `totalScore`) for every player. -/
def calculateRankings (room : Room) : Room :=
  let roundRanks := rankPass (room.players.map (fun p => (p.1, p.2.currentRoundScore)))
  let overallRanks := rankPass (room.players.map (fun p => (p.1, p.2.totalScore)))
  { room with players := room.players.map (fun p =>
      (p.1, { p.2 with endOfRoundRank := roundRanks.lookup p.1
                       overallRank := overallRanks.lookup p.1 })) }

/-- roomHandler.js lines 112-120: map `mode` to a difficulty, defaulting to
"easy" for an unrecognized mode. -/
def difficulty (mode : Nat) : String :=
  (([(1, "easy"), (2, "medium"), (3, "hard"), (4, "easy")] : List (Nat × String)).lookup
    mode).getD "easy"

/-- Result of the next-category selection in `generateRound` (roomHandler.js
lines 122-133).  `cat none` models the JS `undefined` read `rounds[0]` on an
empty plan. -/
inductive NextCat where
  | cat (c : Option Nat)
  | endOfRound
deriving DecidableEq

/-- roomHandler.js lines 122-133: `null` current round selects `rounds[0]`;
otherwise `rounds.indexOf(currentRound)` (first occurrence) is taken and the
successor entry is selected when the index is not the last, `"end of round"`
being returned when it is the last index or the category is absent. -/
def nextCategory (currentRound : Option Nat) (rounds : List Nat) : NextCat :=
  match currentRound with
  | none => .cat rounds[0]?
  | some c =>
    match rounds.findIdx? (· == c) with
    | some i => if i < rounds.length - 1 then .cat rounds[i + 1]? else .endOfRound
    | none => .endOfRound

/-- Successful outcome of `generateRound`: either the `"end of round"`
sentinel, or the chosen category together with the formatted question map. -/
inductive GenOutcome where
  | endOfRound
  | questions (cat : Option Nat) (qs : List (Nat × Question))
deriving DecidableEq

/-- roomHandler.js lines 144-157: key the fetched questions 1..N in provider
order, each with its shuffled answer list `{correct} ∪ incorrect`. -/
def formatQuestions (results : List RawQuestion) (shuffle : List String → List String) :
    List (Nat × Question) :=
  results.enum.map (fun p =>
    (p.1 + 1,
      { question := p.2.question
        correct_answer := p.2.correct_answer
        allAnswers := shuffle (p.2.correct_answer :: p.2.incorrect_answers) }))

/-- roomHandler.js lines 110-168 (`generateRound`).  The source assigns
`room.currentProgress.currentRound = nextCategoryId` just before returning;
here the chosen category is carried in the outcome and applied by the
callers (`createRoom`, `nextRound`), which is observationally the same.
A fetch failure propagates as `.error` (the thrown
"Failed to generate round questions"). -/
def generateRound (currentRound : Option Nat) (rounds : List Nat) (mode qpr : Nat)
    (fetch : Option Nat → String → Nat → Except Unit (List RawQuestion))
    (shuffle : List String → List String) : Except Unit GenOutcome :=
  let dif := difficulty mode
  match nextCategory currentRound rounds with
  | .endOfRound => .ok .endOfRound
  | .cat c =>
    match fetch c dif qpr with
    | .error e => .error e
    | .ok results => .ok (.questions c (formatQuestions results shuffle))

/-- roomHandler.js lines 174-213 (`createRoom`).  `roomId` is the code
produced by `generateUniqueRoomId`.  On fetch failure the error propagates
before `rooms.set`, so no registry entry is made; on success the room, with
its first round's questions, is stored keyed by `roomId`. -/
def createRoom (rooms : List (Nat × Room)) (roomId : Nat) (gameMaster : String)
    (questionTimeLimit questionPerRound : Option Nat) (rounds : List Nat) (mode : Nat)
    (fetch : Option Nat → String → Nat → Except Unit (List RawQuestion))
    (shuffle : List String → List String) : Except Unit (List (Nat × Room) × Room) :=
  let qtl := questionTimeLimit.getD 0
  let qpr := questionPerRound.getD 5
  let room0 : Room :=
    { roomId := roomId
      gameMaster := gameMaster
      questionTimeLimit := qtl
      questionPerRound := qpr
      mode := mode
      rounds := rounds
      players := []
      quizStarted := false
      currentProgress := { currentRound := none, currentQuestion := 1, roundQuestions := .null } }
  match generateRound none rounds mode qpr fetch shuffle with
  | .error e => .error e
  | .ok out =>
    let room : Room :=
      { room0 with currentProgress :=
          { room0.currentProgress with
              currentRound := match out with
                | .endOfRound => room0.currentProgress.currentRound
                | .questions c _ => c
              roundQuestions := match out with
                | .endOfRound => .endSentinel
                | .questions _ qs => .questions qs } }
    .ok (setKey rooms roomId room, room)

/-- roomHandler.js lines 234-255 (`startQuiz`), after registry resolution:
reject when the room has no players, otherwise mark the quiz started.  Note
the source performs no check of `quizStarted` itself. -/
def startQuiz (room : Room) : Except OpError Room :=
  if room.players.length = 0 then .error .noPlayers
  else .ok { room with quizStarted := true }

/-- roomHandler.js lines 257-288 (`playerJoin`), after registry resolution:
reject when the quiz has started; return the room unchanged when the
connection already has a player; otherwise add the fresh player record. -/
def playerJoin (room : Room) (socketId playerName : String) : Except OpError Room :=
  if room.quizStarted then .error .quizAlreadyStarted
  else
    match room.players.lookup socketId with
    | some _ => .ok room
    | none => .ok { room with players := setKey room.players socketId (initializePlayer playerName) }

/-- roomHandler.js lines 295-313 (`nextQuestion`), after registry resolution:
overwrite `currentQuestion` with the caller-supplied id, with no bounds
validation. -/
def nextQuestion (room : Room) (questionId : Nat) : Room :=
  { room with currentProgress := { room.currentProgress with currentQuestion := questionId } }

/-- The per-player reset of `nextRound` (roomHandler.js lines 356-361). -/
def resetPlayerForRound (p : Player) : Player :=
  { p with currentRoundScore := 0, currentRoundAnswers := [], endOfRoundRank := none }

/-- roomHandler.js lines 337-377 (`nextRound`), after registry resolution:
on generator failure the callback receives the error and the room is left
untouched; otherwise the generator's return value (a question map, or the
`"end of round"` sentinel passed through) replaces `roundQuestions`,
`currentQuestion` resets to 1, and every player's round-local fields reset. -/
def nextRound (room : Room)
    (fetch : Option Nat → String → Nat → Except Unit (List RawQuestion))
    (shuffle : List String → List String) : Except Unit Room :=
  match generateRound room.currentProgress.currentRound room.rounds room.mode
      room.questionPerRound fetch shuffle with
  | .error e => .error e
  | .ok out =>
    .ok { room with
      currentProgress :=
        { currentRound := match out with
            | .endOfRound => room.currentProgress.currentRound
            | .questions c _ => c
          currentQuestion := 1
          roundQuestions := match out with
            | .endOfRound => .endSentinel
            | .questions _ qs => .questions qs }
      players := room.players.map (fun p => (p.1, resetPlayerForRound p.2)) }

/-- The question read `room.currentProgress.roundQuestions[currentQid]`
(roomHandler.js line 388): `none` when the index is not a key of the map or
no question map is stored. -/
def activeQuestion (room : Room) : Option Question :=
  match room.currentProgress.roundQuestions with
  | .questions qs => qs.lookup room.currentProgress.currentQuestion
  | _ => none

/-- roomHandler.js lines 379-425 (`submitAnswer`), after registry resolution:
look up the submitting player and the active question, map the 1-based
`answer` through the shuffled answer list (JS indexing, so an out-of-range
choice selects `undefined`), record correctness for the current question
index, and bump both scores when correct. -/
def submitAnswer (room : Room) (socketId : String) (answer : Int) : Except OpError Room :=
  match room.players.lookup socketId with
  | none => .error .playerNotFound
  | some player =>
    let currentQid := room.currentProgress.currentQuestion
    match activeQuestion room with
    | none => .error .noActiveQuestion
    | some currentQuestion =>
      let selectedAnswer := jsIndex currentQuestion.allAnswers (answer - 1)
      let isCorrect : Bool := selectedAnswer == some currentQuestion.correct_answer
      let player1 := { player with
        currentRoundAnswers := setKey player.currentRoundAnswers currentQid isCorrect }
      let player2 :=
        if isCorrect then
          { player1 with currentRoundScore := player1.currentRoundScore + 1
                         totalScore := player1.totalScore + 1 }
        else player1
      .ok { room with players := setKey room.players socketId player2 }

/-- roomHandler.js lines 315-335 (`endOfRound`), after registry resolution:
recompute both rankings and return the room. -/
def endOfRound (room : Room) : Room := calculateRankings room

/-- roomHandler.js lines 427-447 (`endOfGame`): identical room mutation to
`endOfRound`. -/
def endOfGame (room : Room) : Room := calculateRankings room

/-! ### Association-list lemmas -/

theorem lookup_mapReplace {α β : Type} [BEq α] [LawfulBEq α]
    (l : List (α × β)) (k : α) (v : β) (h : (l.lookup k).isSome) :
    List.lookup k (l.map (fun p => if p.1 == k then (k, v) else p)) = some v := by
  induction l with
  | nil => simp [List.lookup] at h
  | cons a t ih =>
    rw [List.map_cons]
    by_cases hk : (a.1 == k) = true
    · rw [if_pos hk]
      simp [List.lookup]
    · rw [if_neg hk]
      have hk' : (k == a.1) = false := by
        have hne : ¬a.1 = k := fun e => hk (beq_iff_eq.mpr e)
        exact beq_eq_false_iff_ne.mpr (fun e => hne e.symm)
      rw [List.lookup_cons] at h ⊢
      simp only [hk'] at h ⊢
      exact ih h

theorem lookup_setKey_self {α β : Type} [BEq α] [LawfulBEq α]
    (l : List (α × β)) (k : α) (v : β) :
    (setKey l k v).lookup k = some v := by
  unfold setKey
  by_cases h : (l.lookup k).isSome
  · rw [if_pos h]
    exact lookup_mapReplace l k v h
  · rw [if_neg h, List.lookup_append]
    have hnone : l.lookup k = none := Option.not_isSome_iff_eq_none.mp h
    rw [hnone]
    simp [List.lookup]

theorem lookup_map_snd {α β : Type} [BEq α] (f : β → β) (l : List (α × β)) (k : α) :
    List.lookup k (l.map (fun p => (p.1, f p.2))) = (List.lookup k l).map f := by
  induction l with
  | nil => rfl
  | cons a t ih =>
    rw [List.map_cons, List.lookup_cons, List.lookup_cons]
    cases k == a.1 with
    | true => rfl
    | false => exact ih

/-! ### Behaviour of submitAnswer -/

/-- State of a player after a correct submission for question `qid`. -/
def scoredPlayer (player : Player) (qid : Nat) : Player :=
  { player with
      currentRoundAnswers := setKey player.currentRoundAnswers qid true
      currentRoundScore := player.currentRoundScore + 1
      totalScore := player.totalScore + 1 }

/-- State of a player after an incorrect submission for question `qid`. -/
def unscoredPlayer (player : Player) (qid : Nat) : Player :=
  { player with currentRoundAnswers := setKey player.currentRoundAnswers qid false }

theorem submitAnswer_found_correct (room : Room) (sid : String) (choice : Int)
    (player : Player) (q : Question)
    (hp : room.players.lookup sid = some player)
    (hq : activeQuestion room = some q)
    (hbeq : (jsIndex q.allAnswers (choice - 1) == some q.correct_answer) = true) :
    submitAnswer room sid choice =
      .ok { room with
              players := setKey room.players sid
                (scoredPlayer player room.currentProgress.currentQuestion) } := by
  simp only [submitAnswer, hp, hq, hbeq, if_true, scoredPlayer]

theorem submitAnswer_found_incorrect (room : Room) (sid : String) (choice : Int)
    (player : Player) (q : Question)
    (hp : room.players.lookup sid = some player)
    (hq : activeQuestion room = some q)
    (hbeq : (jsIndex q.allAnswers (choice - 1) == some q.correct_answer) = false) :
    submitAnswer room sid choice =
      .ok { room with
              players := setKey room.players sid
                (unscoredPlayer player room.currentProgress.currentQuestion) } := by
  simp [submitAnswer, hp, hq, hbeq, unscoredPlayer]

/-- Fixture question: correct answer "A" sits at 1-based choice 2 of the
shuffled answers. -/
def sampleQuestion : Question :=
  { question := "q1", correct_answer := "A", allAnswers := ["B", "A", "C", "D"] }

/-- Fixture room with one joined player and question 1 active. -/
def sampleRoom : Room :=
  { roomId := 123456
    gameMaster := "gm"
    questionTimeLimit := 0
    questionPerRound := 5
    mode := 1
    rounds := [9]
    players := [("p1", initializePlayer "alice")]
    quizStarted := true
    currentProgress :=
      { currentRound := some 9, currentQuestion := 1,
        roundQuestions := .questions [(1, sampleQuestion)] } }

/-- C1: for a room with an existing player and an active current question,
submitting an answer choice that selects the correct answer increments the
player's `currentRoundScore` and `totalScore` each by exactly 1 and records
`true` in `currentRoundAnswers` at the current question index; a choice that
selects an incorrect answer records `false` and changes neither score. -/
theorem submitAnswer_scoring_spec (room : Room) (sid : String) (choice : Int)
    (player : Player) (q : Question) (a : String)
    (hp : room.players.lookup sid = some player)
    (hq : activeQuestion room = some q)
    (ha : jsIndex q.allAnswers (choice - 1) = some a) :
    ∃ room' p', submitAnswer room sid choice = .ok room' ∧
      room'.players.lookup sid = some p' ∧
      (a = q.correct_answer →
        p'.currentRoundAnswers.lookup room.currentProgress.currentQuestion = some true ∧
        p'.currentRoundScore = player.currentRoundScore + 1 ∧
        p'.totalScore = player.totalScore + 1) ∧
      (a ≠ q.correct_answer →
        p'.currentRoundAnswers.lookup room.currentProgress.currentQuestion = some false ∧
        p'.currentRoundScore = player.currentRoundScore ∧
        p'.totalScore = player.totalScore) := by
  by_cases hc : a = q.correct_answer
  · have hbeq : (jsIndex q.allAnswers (choice - 1) == some q.correct_answer) = true := by
      rw [ha, hc]
      simp
    refine ⟨_, _, submitAnswer_found_correct room sid choice player q hp hq hbeq,
      lookup_setKey_self _ _ _, ?_, ?_⟩
    · exact fun _ => ⟨lookup_setKey_self _ _ _, rfl, rfl⟩
    · exact fun hne => absurd hc hne
  · have hbeq : (jsIndex q.allAnswers (choice - 1) == some q.correct_answer) = false := by
      rw [ha]
      simp [hc]
    refine ⟨_, _, submitAnswer_found_incorrect room sid choice player q hp hq hbeq,
      lookup_setKey_self _ _ _, ?_, ?_⟩
    · exact fun heq => absurd heq hc
    · exact fun _ => ⟨lookup_setKey_self _ _ _, rfl, rfl⟩

/-- Witness for C1 at a concrete room: choice 2 selects the correct answer
"A" and the player's total score becomes 1. -/
theorem submitAnswer_scoring_spec_witness :
    ∃ room' p', submitAnswer sampleRoom "p1" 2 = .ok room' ∧
      room'.players.lookup "p1" = some p' ∧
      p'.currentRoundAnswers.lookup 1 = some true ∧
      p'.currentRoundScore = 1 ∧ p'.totalScore = 1 := by
  obtain ⟨room', p', h1, h2, h3, -⟩ :=
    submitAnswer_scoring_spec sampleRoom "p1" 2 (initializePlayer "alice") sampleQuestion "A"
      rfl rfl rfl
  obtain ⟨hrec, hs, ht⟩ := h3 rfl
  exact ⟨room', p', h1, h2, hrec, hs.trans (by decide), ht.trans (by decide)⟩

/-- C10: for a room with an existing player and an active current question,
an answer choice outside 1..length(allAnswers) is not an error: the call
succeeds, records `false` at the current question index, and changes neither
score (the JS read `allAnswers[answer - 1]` is `undefined`, which never
equals the correct answer). -/
theorem submitAnswer_out_of_range_spec (room : Room) (sid : String) (choice : Int)
    (player : Player) (q : Question)
    (hp : room.players.lookup sid = some player)
    (hq : activeQuestion room = some q)
    (hout : choice < 1 ∨ (q.allAnswers.length : Int) < choice) :
    ∃ room' p', submitAnswer room sid choice = .ok room' ∧
      room'.players.lookup sid = some p' ∧
      p'.currentRoundAnswers.lookup room.currentProgress.currentQuestion = some false ∧
      p'.currentRoundScore = player.currentRoundScore ∧
      p'.totalScore = player.totalScore := by
  have hnone : jsIndex q.allAnswers (choice - 1) = none := by
    unfold jsIndex
    rcases hout with h1 | h2
    · rw [if_neg]
      omega
    · by_cases h0 : (0 : Int) ≤ choice - 1
      · rw [if_pos h0]
        apply List.getElem?_eq_none
        omega
      · rw [if_neg h0]
  have hbeq : (jsIndex q.allAnswers (choice - 1) == some q.correct_answer) = false := by
    rw [hnone]
    rfl
  refine ⟨_, _, submitAnswer_found_incorrect room sid choice player q hp hq hbeq,
    lookup_setKey_self _ _ _, ?_, ?_, ?_⟩
  · exact lookup_setKey_self _ _ _
  · rfl
  · rfl

/-- Witness for C10 at a concrete room: choice 99 is out of range for 4
answers, the submission succeeds and scores stay 0. -/
theorem submitAnswer_out_of_range_spec_witness :
    ∃ room' p', submitAnswer sampleRoom "p1" 99 = .ok room' ∧
      room'.players.lookup "p1" = some p' ∧
      p'.currentRoundAnswers.lookup 1 = some false ∧
      p'.currentRoundScore = 0 ∧ p'.totalScore = 0 := by
  obtain ⟨room', p', h1, h2, h3, hs, ht⟩ :=
    submitAnswer_out_of_range_spec sampleRoom "p1" 99 (initializePlayer "alice") sampleQuestion
      rfl rfl (Or.inr (by decide))
  exact ⟨room', p', h1, h2, h3, hs.trans (by decide), ht.trans (by decide)⟩

/-! ### Ranking calculator -/

theorem ranksGo_map_fst : ∀ (l : List (String × Nat)) (i r p : Nat),
    (ranksGo i r p l).map Prod.fst = l.map Prod.fst
  | [], _, _, _ => rfl
  | e :: t, i, r, p => by simp [ranksGo, ranksGo_map_fst t]

theorem ranksGo_const (c : Nat) (l : List (String × Nat)) (h : ∀ x ∈ l, x.2 = c) :
    ∀ k r, ranksGo k r c l = l.map (fun e => (e.1, r)) := by
  induction l with
  | nil => intro k r; rfl
  | cons e t ih =>
    intro k r
    have he : e.2 = c := h e (by simp)
    have ht : ∀ x ∈ t, x.2 = c := fun x hx => h x (by simp [hx])
    simp [ranksGo, he, ih ht]

theorem ranksGo_rank_step (l : List (String × Nat)) :
    ∀ (k r p j : Nat), j + 1 < l.length →
      (((l[j + 1]?).map Prod.snd = (l[j]?).map Prod.snd →
        ((ranksGo k r p l)[j + 1]?).map Prod.snd = ((ranksGo k r p l)[j]?).map Prod.snd) ∧
      ((l[j + 1]?).map Prod.snd ≠ (l[j]?).map Prod.snd →
        ((ranksGo k r p l)[j + 1]?).map Prod.snd = some (k + j + 2))) := by
  induction l with
  | nil => intro k r p j h; simp at h
  | cons e t ih =>
    intro k r p j h
    cases t with
    | nil => simp at h
    | cons f t' =>
      cases j with
      | zero =>
        constructor
        · intro hs
          have hfe : f.2 = e.2 := by simpa using hs
          simp [ranksGo, hfe]
        · intro hs
          have hfe : ¬f.2 = e.2 := by simpa using hs
          simp [ranksGo, hfe]
      | succ j' =>
        have h' : j' + 1 < (f :: t').length := by
          simp only [List.length_cons] at h ⊢
          omega
        have hih := ih (k + 1) (if 0 < k ∧ e.2 ≠ p then k + 1 else r) e.2 j' h'
        constructor
        · intro hs
          have hstep := hih.1 (by simpa using hs)
          simpa [ranksGo] using hstep
        · intro hs
          have hstep := hih.2 (by simpa using hs)
          have harith : k + 1 + j' + 2 = k + (j' + 1) + 2 := by omega
          rw [harith] at hstep
          simpa [ranksGo] using hstep

theorem rankPass_head (l : List (String × Nat)) (e : String × Nat) (t : List (String × Nat))
    (hs : sortScoresDesc l = e :: t) : (rankPass l)[0]? = some (e.1, 1) := by
  unfold rankPass
  rw [hs]
  simp [ranksGo]

theorem rankPass_const (l : List (String × Nat)) (c : Nat) (h : ∀ x ∈ l, x.2 = c) :
    ∀ x ∈ rankPass l, x.2 = 1 := by
  have hsorted : ∀ x ∈ sortScoresDesc l, x.2 = c := fun x hx =>
    h x ((List.perm_insertionSort _ l).mem_iff.mp hx)
  intro x hx
  rw [rankPass] at hx
  cases hs : sortScoresDesc l with
  | nil => rw [hs] at hx; simp [ranksGo] at hx
  | cons e t =>
    rw [hs] at hx
    have he : e.2 = c := hsorted e (by rw [hs]; simp)
    have ht : ∀ y ∈ t, y.2 = c := fun y hy => hsorted y (by rw [hs]; simp [hy])
    have hexp : ranksGo 0 1 0 (e :: t) = (e.1, 1) :: t.map (fun y => (y.1, 1)) := by
      simp [ranksGo, he, ranksGo_const c t ht]
    rw [hexp] at hx
    rcases List.mem_cons.mp hx with h1 | h2
    · rw [h1]
    · obtain ⟨y, _, rfl⟩ := List.mem_map.mp h2
      rfl

theorem lookup_map_keyed {α β : Type} [BEq α] [LawfulBEq α] (f : α → β → β)
    (l : List (α × β)) (k : α) :
    List.lookup k (l.map (fun p => (p.1, f p.1 p.2))) =
      (List.lookup k l).map (fun b => f k b) := by
  induction l with
  | nil => rfl
  | cons a t ih =>
    obtain ⟨a1, a2⟩ := a
    simp only [List.map_cons, List.lookup_cons]
    cases hk : k == a1 with
    | true =>
      have hke : k = a1 := beq_iff_eq.mp hk
      simp [hke]
    | false => simpa using ih

/-- C2: the ranking computation sorts players descending by the selected
score (a permutation of the input, sorted weakly decreasing), keeps the
player ids of the sorted order, gives the first player rank 1, gives each
subsequent player the previous player's rank when scores tie and otherwise
its 1-based position; `calculateRankings` applies this pass per player over
`currentRoundScore` and `totalScore`; scores [10,10,7] yield ranks [1,1,3],
[5,4,3,3,1] yield [1,2,3,3,5], and all-equal scores yield rank 1 for all. -/
theorem calculateRankings_dense_gap_skip :
    (∀ l : List (String × Nat),
      (sortScoresDesc l).Perm l ∧
      List.Sorted (fun a b : String × Nat => b.2 ≤ a.2) (sortScoresDesc l) ∧
      (rankPass l).map Prod.fst = (sortScoresDesc l).map Prod.fst ∧
      (∀ e t, sortScoresDesc l = e :: t → (rankPass l)[0]? = some (e.1, 1)) ∧
      (∀ j, j + 1 < (sortScoresDesc l).length →
        ((((sortScoresDesc l)[j + 1]?).map Prod.snd = ((sortScoresDesc l)[j]?).map Prod.snd →
          ((rankPass l)[j + 1]?).map Prod.snd = ((rankPass l)[j]?).map Prod.snd) ∧
        (((sortScoresDesc l)[j + 1]?).map Prod.snd ≠ ((sortScoresDesc l)[j]?).map Prod.snd →
          ((rankPass l)[j + 1]?).map Prod.snd = some (j + 2))))) ∧
    (∀ (room : Room) (pid : String) (p : Player),
      room.players.lookup pid = some p →
      (calculateRankings room).players.lookup pid = some
        { p with
            endOfRoundRank :=
              (rankPass (room.players.map (fun q => (q.1, q.2.currentRoundScore)))).lookup pid
            overallRank :=
              (rankPass (room.players.map (fun q => (q.1, q.2.totalScore)))).lookup pid }) ∧
    (rankPass [("a", 10), ("b", 10), ("c", 7)]).map Prod.snd = [1, 1, 3] ∧
    (rankPass [("a", 5), ("b", 4), ("c", 3), ("d", 3), ("e", 1)]).map Prod.snd = [1, 2, 3, 3, 5] ∧
    (∀ (l : List (String × Nat)) (c : Nat), (∀ x ∈ l, x.2 = c) → ∀ x ∈ rankPass l, x.2 = 1) := by
  refine ⟨fun l => ⟨List.perm_insertionSort _ l, ?_, ranksGo_map_fst _ 0 1 0,
      fun e t hs => rankPass_head l e t hs,
      fun j hj => by simpa [rankPass] using ranksGo_rank_step (sortScoresDesc l) 0 1 0 j hj⟩,
    ?_, by decide, by decide, fun l c h => rankPass_const l c h⟩
  · haveI : IsTotal (String × Nat) (fun a b => b.2 ≤ a.2) := ⟨fun a b => le_total b.2 a.2⟩
    haveI : IsTrans (String × Nat) (fun a b => b.2 ≤ a.2) :=
      ⟨fun _ _ _ hab hbc => le_trans hbc hab⟩
    exact List.sorted_insertionSort _ l
  · intro room pid p hp
    show List.lookup pid (calculateRankings room).players = _
    simp only [calculateRankings]
    rw [lookup_map_keyed
      (fun k b => { b with
          endOfRoundRank :=
            (rankPass (room.players.map (fun q => (q.1, q.2.currentRoundScore)))).lookup k
          overallRank :=
            (rankPass (room.players.map (fun q => (q.1, q.2.totalScore)))).lookup k })
      room.players pid]
    rw [hp]
    rfl

/-- Witness for C2 at concrete inputs: the sorted head of [("x",5),("y",7)]
gets rank 1, and the single player of `sampleRoom` gets both ranks 1. -/
theorem calculateRankings_dense_gap_skip_witness :
    (rankPass [("x", 5), ("y", 7)])[0]? = some ("y", 1) ∧
    (calculateRankings sampleRoom).players.lookup "p1" = some
      { initializePlayer "alice" with endOfRoundRank := some 1, overallRank := some 1 } := by
  constructor
  · exact (calculateRankings_dense_gap_skip.1 [("x", 5), ("y", 7)]).2.2.2.1 ("y", 7)
      [("x", 5)] (by decide)
  · have h := calculateRankings_dense_gap_skip.2.1 sampleRoom "p1" (initializePlayer "alice") rfl
    rw [h]
    decide

/-! ### Round generator: next-category selection -/

/-- C3: for every round plan, an absent current category selects
`roundPlan[0]`; otherwise, with `i` the first index of the plan equal to the
current category, a non-last `i` selects `roundPlan[i+1]`, and a last `i`
makes `generateRound` return the `end of round` signal as a successful
outcome (`.ok .endOfRound`), distinct from failure (`.error`) and carrying
no question set. -/
theorem generateRound_next_category_spec (rounds : List Nat) (c i mode qpr : Nat)
    (fetch : Option Nat → String → Nat → Except Unit (List RawQuestion))
    (shuffle : List String → List String)
    (hfind : rounds.findIdx? (· == c) = some i) :
    (∀ c0, rounds[0]? = some c0 → nextCategory none rounds = .cat (some c0)) ∧
    (i < rounds.length - 1 →
      nextCategory (some c) rounds = .cat rounds[i + 1]? ∧ (rounds[i + 1]?).isSome) ∧
    (i = rounds.length - 1 →
      generateRound (some c) rounds mode qpr fetch shuffle = .ok .endOfRound) := by
  refine ⟨?_, ?_, ?_⟩
  · intro c0 h0
    simp [nextCategory, h0]
  · intro hlt
    constructor
    · simp [nextCategory, hfind, hlt]
    · have hlen : i + 1 < rounds.length := by omega
      simp [List.getElem?_eq_getElem hlen]
  · intro hlast
    have hnot : ¬i < rounds.length - 1 := by omega
    simp [generateRound, nextCategory, hfind, hnot]

/-- Witness for C3 on the plan [10, 12, 9]: from absent the next category is
10, from 12 it is 9, and from the last element 9 the generator yields the
terminal signal. -/
theorem generateRound_next_category_spec_witness :
    nextCategory none [10, 12, 9] = .cat (some 10) ∧
    nextCategory (some 12) [10, 12, 9] = .cat (some 9) ∧
    generateRound (some 9) [10, 12, 9] 1 5 (fun _ _ _ => .error ()) id = .ok .endOfRound := by
  refine ⟨?_, ?_, ?_⟩
  · exact (generateRound_next_category_spec [10, 12, 9] 12 1 1 5 (fun _ _ _ => .error ()) id
      (by decide)).1 10 rfl
  · exact (((generateRound_next_category_spec [10, 12, 9] 12 1 1 5 (fun _ _ _ => .error ()) id
      (by decide)).2.1 (by decide)).1).trans (by decide)
  · exact (generateRound_next_category_spec [10, 12, 9] 9 2 1 5 (fun _ _ _ => .error ()) id
      (by decide)).2.2 (by decide)

/-! ### nextRound: round-local reset and frame -/

/-- Fixture raw question as fetched from the provider. -/
def sampleRaw : RawQuestion :=
  { question := "q2", correct_answer := "X", incorrect_answers := ["Y", "Z"] }

/-- C4: a successful `nextRound` replaces `roundQuestions`, resets
`currentQuestion` to 1, and per player zeroes `currentRoundScore`, empties
`currentRoundAnswers` and clears `endOfRoundRank`, while `totalScore` and
`overallRank` are unchanged. -/
theorem nextRound_success_resets (room : Room)
    (fetch : Option Nat → String → Nat → Except Unit (List RawQuestion))
    (shuffle : List String → List String) (cat : Option Nat) (qs : List (Nat × Question))
    (hgen : generateRound room.currentProgress.currentRound room.rounds room.mode
      room.questionPerRound fetch shuffle = .ok (.questions cat qs)) :
    ∃ room', nextRound room fetch shuffle = .ok room' ∧
      room'.currentProgress.roundQuestions = .questions qs ∧
      room'.currentProgress.currentQuestion = 1 ∧
      room'.players.map Prod.fst = room.players.map Prod.fst ∧
      (∀ pid p, room.players.lookup pid = some p →
        ∃ p', room'.players.lookup pid = some p' ∧
          p'.currentRoundScore = 0 ∧ p'.currentRoundAnswers = [] ∧
          p'.endOfRoundRank = none ∧
          p'.totalScore = p.totalScore ∧ p'.overallRank = p.overallRank) := by
  have heq : nextRound room fetch shuffle = .ok { room with
      currentProgress :=
        { currentRound := cat, currentQuestion := 1, roundQuestions := .questions qs }
      players := room.players.map (fun p => (p.1, resetPlayerForRound p.2)) } := by
    simp [nextRound, hgen]
  refine ⟨_, heq, rfl, rfl, by simp, ?_⟩
  intro pid p hp
  refine ⟨resetPlayerForRound p, ?_, rfl, rfl, rfl, rfl, rfl⟩
  show List.lookup pid (room.players.map (fun q => (q.1, resetPlayerForRound q.2))) = _
  rw [lookup_map_snd, hp]
  rfl

/-- Witness for C4: advancing `sampleRoom` (with plan [9, 10]) to the next
round succeeds and resets the player's round-local state. -/
theorem nextRound_success_resets_witness :
    ∃ room' p',
      nextRound { sampleRoom with rounds := [9, 10] } (fun _ _ _ => .ok [sampleRaw]) id =
        .ok room' ∧
      room'.currentProgress.currentQuestion = 1 ∧
      room'.players.lookup "p1" = some p' ∧
      p'.currentRoundScore = 0 ∧ p'.totalScore = 0 := by
  obtain ⟨room', h1, _, h3, _, h5⟩ :=
    nextRound_success_resets { sampleRoom with rounds := [9, 10] }
      (fun _ _ _ => .ok [sampleRaw]) id (some 10) (formatQuestions [sampleRaw] id) rfl
  obtain ⟨p', hp', h0, _, _, hT, _⟩ := h5 "p1" (initializePlayer "alice") rfl
  exact ⟨room', p', h1, h3, hp', h0, hT.trans rfl⟩

/-! ### playerJoin: lobby guard and idempotence -/

/-- C5: join is rejected with the quiz-already-started error whenever
`quizStarted` is true (and then no player is added, the operation returning
only the error); and when the connection already has a player in a lobby
room, join returns the room unchanged, adding no duplicate. -/
theorem playerJoin_guard_idempotent (room : Room) (sid pname : String) :
    (room.quizStarted = true → playerJoin room sid pname = .error .quizAlreadyStarted) ∧
    (∀ p, room.quizStarted = false → room.players.lookup sid = some p →
      playerJoin room sid pname = .ok room) := by
  constructor
  · intro h
    simp [playerJoin, h]
  · intro p h hp
    simp [playerJoin, h, hp]

/-- Witness for C5: joining started `sampleRoom` is rejected; re-joining the
lobby variant with the existing connection returns the room unchanged. -/
theorem playerJoin_guard_idempotent_witness :
    playerJoin sampleRoom "p2" "bob" = .error .quizAlreadyStarted ∧
    playerJoin { sampleRoom with quizStarted := false } "p1" "alice2" =
      .ok { sampleRoom with quizStarted := false } := by
  constructor
  · exact (playerJoin_guard_idempotent sampleRoom "p2" "bob").1 rfl
  · exact (playerJoin_guard_idempotent { sampleRoom with quizStarted := false } "p1"
      "alice2").2 (initializePlayer "alice") rfl rfl

/-! ### createRoom: atomicity against generation failure -/

/-- The fresh room literal of `createRoom` (roomHandler.js lines 180-196)
after the generator outcome has been written into `currentProgress`. -/
def builtRoom (roomId : Nat) (gm : String) (qtl qpr : Option Nat) (rounds : List Nat)
    (mode : Nat) (out : GenOutcome) : Room :=
  { roomId := roomId
    gameMaster := gm
    questionTimeLimit := qtl.getD 0
    questionPerRound := qpr.getD 5
    mode := mode
    rounds := rounds
    players := []
    quizStarted := false
    currentProgress :=
      { currentRound := match out with
          | .endOfRound => none
          | .questions c _ => c
        currentQuestion := 1
        roundQuestions := match out with
          | .endOfRound => .endSentinel
          | .questions _ qs => .questions qs } }

/-- C6: room creation is atomic for question generation: when generating the
first round fails the error propagates and no registry entry is produced;
only on success is the room stored in the registry keyed by its `roomId`. -/
theorem createRoom_atomic (rooms : List (Nat × Room)) (roomId : Nat) (gm : String)
    (qtl qpr : Option Nat) (rounds : List Nat) (mode : Nat)
    (fetch : Option Nat → String → Nat → Except Unit (List RawQuestion))
    (shuffle : List String → List String) :
    (∀ e, generateRound none rounds mode (qpr.getD 5) fetch shuffle = .error e →
      createRoom rooms roomId gm qtl qpr rounds mode fetch shuffle = .error e) ∧
    (∀ out, generateRound none rounds mode (qpr.getD 5) fetch shuffle = .ok out →
      ∃ room, createRoom rooms roomId gm qtl qpr rounds mode fetch shuffle =
          .ok (setKey rooms roomId room, room) ∧
        room.roomId = roomId ∧
        (setKey rooms roomId room).lookup roomId = some room) := by
  constructor
  · intro e he
    simp [createRoom, he]
  · intro out ho
    refine ⟨builtRoom roomId gm qtl qpr rounds mode out, ?_, rfl, lookup_setKey_self _ _ _⟩
    simp [createRoom, ho, builtRoom]

/-- Witness for C6: a failing fetch aborts creation with the error, and a
succeeding fetch registers the room under its code. -/
theorem createRoom_atomic_witness :
    createRoom [] 123456 "gm" none none [9] 1 (fun _ _ _ => .error ()) id = .error () ∧
    ∃ room, createRoom [] 123456 "gm" none none [9] 1 (fun _ _ _ => .ok [sampleRaw]) id =
        .ok (setKey [] 123456 room, room) ∧
      room.roomId = 123456 ∧
      (setKey ([] : List (Nat × Room)) 123456 room).lookup 123456 = some room := by
  constructor
  · exact (createRoom_atomic [] 123456 "gm" none none [9] 1 (fun _ _ _ => .error ()) id).1
      () rfl
  · exact (createRoom_atomic [] 123456 "gm" none none [9] 1 (fun _ _ _ => .ok [sampleRaw])
      id).2 (.questions (some 9) (formatQuestions [sampleRaw] id)) rfl

/-! ### startQuiz: the source has no Lobby-state check -/

/-- C7 counterexample: `sampleRoom` is already in progress (`quizStarted`
true) and has a player, yet `startQuiz` succeeds instead of being rejected,
refuting the claim that `startQuiz` is valid only in the Lobby state. -/
theorem startQuiz_not_lobby_only :
    sampleRoom.quizStarted = true ∧
    startQuiz sampleRoom = .ok { sampleRoom with quizStarted := true } :=
  ⟨rfl, rfl⟩

/-- C7 amended: `startQuiz` is rejected with the no-players error exactly
when the room's players mapping is empty, with no check of `quizStarted`
(so a started room can be started again); on success it sets `quizStarted`
to true. -/
theorem startQuiz_spec_amended (room : Room) :
    (room.players.length = 0 → startQuiz room = .error .noPlayers) ∧
    (room.players.length ≠ 0 → startQuiz room = .ok { room with quizStarted := true }) := by
  constructor
  · intro h
    simp [startQuiz, h]
  · intro h
    simp [startQuiz, h]

/-- Witness for the amended C7: an empty room is rejected with the
no-players error, and `sampleRoom` (one player) starts successfully. -/
theorem startQuiz_spec_amended_witness :
    startQuiz { sampleRoom with players := [] } = .error .noPlayers ∧
    startQuiz sampleRoom = .ok { sampleRoom with quizStarted := true } := by
  constructor
  · exact (startQuiz_spec_amended { sampleRoom with players := [] }).1 rfl
  · exact (startQuiz_spec_amended sampleRoom).2 (by decide)

/-! ### generateUniqueRoomId: freshness and range -/

/-- C8: against a registry with fewer than 900000 rooms, the id generator
terminates on any random stream that eventually draws every code (true with
probability 1) and returns a code in 100000..999999 that is not already a
key of the registry. -/
theorem generateUniqueRoomId_fresh (roomIds : List Nat) (rnd : Nat → Nat)
    (hsize : roomIds.length < 900000)
    (hstream : ∀ c, c < 900000 → ∃ n, rnd n % 900000 = c) :
    ∃ (hex : ∃ n, (100000 + rnd n % 900000) ∉ roomIds),
      ∃ v, generateUniqueRoomId roomIds rnd hex = v ∧
        100000 ≤ v ∧ v ≤ 999999 ∧ v ∉ roomIds := by
  have hfree : ∃ c, c < 900000 ∧ (100000 + c) ∉ roomIds := by
    by_contra hall
    push_neg at hall
    have hsub : (Finset.range 900000).image (fun c => 100000 + c) ⊆ roomIds.toFinset := by
      intro x hx
      obtain ⟨c, hc, rfl⟩ := Finset.mem_image.mp hx
      exact List.mem_toFinset.mpr (hall c (Finset.mem_range.mp hc))
    have hinj : Function.Injective (fun c : Nat => 100000 + c) := by
      intro x y hxy
      have hxy' : 100000 + x = 100000 + y := hxy
      omega
    have hcard : (900000 : Nat) ≤ roomIds.toFinset.card := by
      have h1 : ((Finset.range 900000).image (fun c => 100000 + c)).card = 900000 := by
        rw [Finset.card_image_of_injective _ hinj, Finset.card_range]
      exact h1 ▸ Finset.card_le_card hsub
    have hle := List.toFinset_card_le roomIds
    omega
  obtain ⟨c, hc, hcfree⟩ := hfree
  obtain ⟨n, hn⟩ := hstream c hc
  have hex : ∃ m, (100000 + rnd m % 900000) ∉ roomIds := ⟨n, by rw [hn]; exact hcfree⟩
  refine ⟨hex, 100000 + rnd (Nat.find hex) % 900000, rfl, ?_, ?_, Nat.find_spec hex⟩
  · omega
  · have hm : rnd (Nat.find hex) % 900000 < 900000 := Nat.mod_lt _ (by omega)
    omega

/-- Witness for C8: against the registry {100000, 100001} and the identity
stream, the generator returns a fresh in-range code. -/
theorem generateUniqueRoomId_fresh_witness :
    ∃ (hex : ∃ n, (100000 + (fun m : Nat => m) n % 900000) ∉ [100000, 100001]),
      ∃ v, generateUniqueRoomId [100000, 100001] (fun m => m) hex = v ∧
        100000 ≤ v ∧ v ≤ 999999 ∧ v ∉ [100000, 100001] :=
  generateUniqueRoomId_fresh [100000, 100001] (fun m => m) (by decide)
    (fun c hc => ⟨c, Nat.mod_eq_of_lt hc⟩)

/-! ### The question-index invariant and nextQuestion -/

/-- The §3 invariant of the spec: once a round's question map exists,
`currentQuestion` refers to one of its keys (vacuous before the first round
materializes or while the sentinel is stored). -/
def questionIndexValid (room : Room) : Bool :=
  match room.currentProgress.roundQuestions with
  | .questions qs => (qs.lookup room.currentProgress.currentQuestion).isSome
  | _ => true

theorem submitAnswer_ok_progress (room : Room) (sid : String) (ans : Int) (r : Room)
    (h : submitAnswer room sid ans = .ok r) :
    r.currentProgress = room.currentProgress := by
  unfold submitAnswer at h
  cases hl : List.lookup sid room.players with
  | none => rw [hl] at h; simp at h
  | some player =>
    rw [hl] at h
    cases ha : activeQuestion room with
    | none => rw [ha] at h; simp at h
    | some q =>
      rw [ha] at h
      simp only [Except.ok.injEq] at h
      rw [← h]

/-- C9 counterexample: in `sampleRoom` the invariant holds (question 1 is a
key of the one-question map), but `nextQuestion` with caller-supplied index
2 — which `roundQuestions` does not contain — breaks it: the operation does
no bounds validation, refuting preservation by every operation. -/
theorem nextQuestion_breaks_index_invariant :
    questionIndexValid sampleRoom = true ∧
    questionIndexValid (nextQuestion sampleRoom 2) = false := by
  decide

/-- C9 amended: the invariant is preserved by `playerJoin`, `startQuiz`,
`submitAnswer`, `endOfRound` and `endOfGame`; a question map produced from a
non-empty provider result always has key 1, so a successful `nextRound`
(which resets the index to 1) restores it; but `nextQuestion` installs the
caller-supplied index unchecked, so it preserves the invariant exactly when
that index is a key of the stored `roundQuestions`. -/
theorem question_index_invariant_amended :
    (∀ (room : Room) (sid pname : String) (r : Room),
      playerJoin room sid pname = .ok r → questionIndexValid r = questionIndexValid room) ∧
    (∀ (room r : Room),
      startQuiz room = .ok r → questionIndexValid r = questionIndexValid room) ∧
    (∀ (room : Room) (sid : String) (ans : Int) (r : Room),
      submitAnswer room sid ans = .ok r → questionIndexValid r = questionIndexValid room) ∧
    (∀ room : Room, questionIndexValid (endOfRound room) = questionIndexValid room) ∧
    (∀ room : Room, questionIndexValid (endOfGame room) = questionIndexValid room) ∧
    (∀ (room : Room) (qid : Nat),
      questionIndexValid (nextQuestion room qid) =
        (match room.currentProgress.roundQuestions with
         | .questions qs => (qs.lookup qid).isSome
         | _ => true)) ∧
    (∀ (x : RawQuestion) (xs : List RawQuestion) (shuffle : List String → List String),
      ((formatQuestions (x :: xs) shuffle).lookup 1).isSome = true) ∧
    (∀ (room : Room) (fetch : Option Nat → String → Nat → Except Unit (List RawQuestion))
      (shuffle : List String → List String) (cat : Option Nat)
      (qs : List (Nat × Question)) (r : Room),
      generateRound room.currentProgress.currentRound room.rounds room.mode
        room.questionPerRound fetch shuffle = .ok (.questions cat qs) →
      nextRound room fetch shuffle = .ok r →
      questionIndexValid r = (qs.lookup 1).isSome) := by
  refine ⟨?_, ?_, ?_, ?_, ?_, ?_, ?_, ?_⟩
  · intro room sid pname r h
    unfold playerJoin at h
    by_cases hq : room.quizStarted
    · simp [hq] at h
    · rw [if_neg hq] at h
      cases hl : List.lookup sid room.players with
      | none =>
        rw [hl] at h
        simp only [Except.ok.injEq] at h
        rw [← h]
        rfl
      | some p =>
        rw [hl] at h
        simp only [Except.ok.injEq] at h
        rw [← h]
  · intro room r h
    unfold startQuiz at h
    by_cases hp : room.players.length = 0
    · simp [hp] at h
    · rw [if_neg hp] at h
      simp only [Except.ok.injEq] at h
      rw [← h]
      rfl
  · intro room sid ans r h
    unfold questionIndexValid
    rw [submitAnswer_ok_progress room sid ans r h]
  · intro room
    rfl
  · intro room
    rfl
  · intro room qid
    unfold questionIndexValid nextQuestion
    rfl
  · intro x xs shuffle
    rfl
  · intro room fetch shuffle cat qs r hgen h
    rw [nextRound, hgen] at h
    simp only [Except.ok.injEq] at h
    rw [← h]
    unfold questionIndexValid
    rfl

/-- Lobby-state variant of `sampleRoom`. -/
def lobbyRoom : Room := { sampleRoom with quizStarted := false }

/-- Witness for the amended C9 at concrete inputs: re-pointing `sampleRoom`
at its existing question key keeps the invariant, and a join into the lobby
variant of `sampleRoom` leaves the invariant reading unchanged. -/
theorem question_index_invariant_amended_witness :
    questionIndexValid (nextQuestion sampleRoom 1) = true ∧
    questionIndexValid { lobbyRoom with players := setKey lobbyRoom.players "p2" (initializePlayer "bob") } = questionIndexValid lobbyRoom := by
  constructor
  · exact (question_index_invariant_amended.2.2.2.2.2.1 sampleRoom 1).trans (by decide)
  · exact question_index_invariant_amended.1 lobbyRoom "p2" "bob" _ rfl

end Trivia
